import Mathlib

/-!
Verification of the Boatmate Warranty-Intake worker
(`warranty-form-handler.js`) against its design specification.

The development shallowly embeds the three parts of the source the
specification's claims are about:

* the `ClaimCounter` Durable Object (`ClaimCounter.fetch`, source lines
  60-73): a persisted counter under storage key `"n"`, baseline 100000;
* the worker's default `fetch` handler (honeypot gate, server-side
  validation, claim-number allocation, downstream CRM / email effects);
* the `escapeHtml` helper (source lines 978-985).

Storage for the Durable Object is modelled as `Option Nat`: the value
persisted under key `"n"`, or `none` when nothing has been persisted yet.
JavaScript truthiness of `(await storage.get("n")) || 100000` is modelled
exactly: a missing value *or a stored 0* both read as the baseline.
-/

/-- Baseline of the claim counter: the value used when nothing has been
persisted yet (source line 66, literal `100000`). -/
def baseline : Nat := 100000

/-- Model of `(await this.state.storage.get("n")) || 100000` (source line 66).
JavaScript `||` takes the right operand when the left is falsy, i.e. when the
key is absent or the stored number is `0`. -/
def readOr (s : Option Nat) : Nat :=
  match s with
  | none => baseline
  | some v => if v = 0 then baseline else v

/-- The read-increment-persist core of `ClaimCounter.fetch` (source lines
66-68): read `n` (or baseline), add one, persist, return the new value
together with the new storage contents. -/
def allocate (s : Option Nat) : Nat × Option Nat :=
  let n := readOr s + 1
  (n, some n)

/-- Error surface of the counter when the persistence layer fails, named
`StorageUnavailable` in the specification's error taxonomy (spec section 7). -/
inductive CounterError where
  | storageUnavailable
deriving DecidableEq, Repr

/-- `ClaimCounter.fetch`'s allocation path with the persistence write made
explicit: the source (lines 66-68) reads, increments, then awaits
`storage.put("n", n)`. When the put fails the exception propagates out of
`fetch` (there is no `try`/`catch` in the Durable Object) before any storage
mutation has been committed, so the persisted value is unchanged. -/
def fetchNextWithPut (putOk : Bool) (s : Option Nat) :
    Except CounterError Nat × Option Nat :=
  let n := readOr s + 1
  match putOk with
  | true => (Except.ok n, some n)
  | false => (Except.error CounterError.storageUnavailable, s)

/-- An incoming request to the Durable Object, reduced to the two parts its
code inspects: the HTTP method and the URL path (source lines 61-62). -/
structure DoRequest where
  method : String
  path : String

/-- A response from the Durable Object: status and body (headers elided). -/
structure DoResponse where
  status : Nat
  body : String
deriving DecidableEq, Repr

/-- `JSON.stringify({ n })` as built on source line 70. -/
def jsonCounterBody (n : Nat) : String :=
  "\x7b\"n\":" ++ toString n ++ "\x7d"

/-- `ClaimCounter.fetch` (source lines 60-73): non-POST or non-`/next`
requests get a 404 and touch nothing; otherwise the counter is read,
incremented and persisted, and the new value is returned as JSON. -/
def ClaimCounter.fetch (req : DoRequest) (s : Option Nat) :
    DoResponse × Option Nat :=
  if req.method ≠ "POST" ∨ req.path ≠ "/next" then
    ({ status := 404, body := "Not found" }, s)
  else
    let r := allocate s
    ({ status := 200, body := jsonCounterBody r.1 }, r.2)

/-- The request the worker sends to the Durable Object stub:
`fetch("https://counter/next", { method: "POST" })` (source lines 408-409). -/
def postNext : DoRequest := { method := "POST", path := "/next" }

/-- Counter-storage states reachable in the service's lifetime: the fresh
state, and any state produced by a successful allocation. Failed puts and
404 responses leave storage unchanged and hence add no new states. -/
inductive ReachableCounter : Option Nat → Prop
  | fresh : ReachableCounter none
  | next (s : Option Nat) (h : ReachableCounter s) :
      ReachableCounter (some (readOr s + 1))

/-- A sequence of `k` back-to-back successful allocations: the list of
returned claim numbers in call order, and the final storage contents. -/
def runAlloc : Nat → Option Nat → List Nat × Option Nat
  | 0, s => ([], s)
  | k + 1, s =>
    let r := allocate s
    let rest := runAlloc k r.2
    (r.1 :: rest.1, rest.2)

/-- A process restart discards all in-memory state but preserves durable
storage. The Durable Object keeps no in-memory copy of the counter (it
re-reads storage on every call), so a restart leaves the model state — which
is exactly the storage — untouched. -/
def restart (s : Option Nat) : Option Nat := s

-- ---------------------------------------------------------------------
-- Basic counter lemmas
-- ---------------------------------------------------------------------

theorem readOr_none : readOr none = baseline := rfl

theorem readOr_some_pos {v : Nat} (hv : 0 < v) : readOr (some v) = v := by
  simp [readOr, Nat.pos_iff_ne_zero.mp hv]

theorem allocate_some_pos {p : Nat} (hp : 0 < p) :
    allocate (some p) = (p + 1, some (p + 1)) := by
  simp [allocate, readOr_some_pos hp]

theorem reachable_gt {s : Option Nat} (h : ReachableCounter s) :
    ∀ v, s = some v → baseline < v := by
  induction h with
  | fresh => intro v hv; exact absurd hv (by simp)
  | next t ht ih =>
    intro v hv
    have hv' : readOr t + 1 = v := by injection hv
    cases t with
    | none =>
      have : readOr none = baseline := rfl
      omega
    | some w =>
      have hw := ih w rfl
      rw [readOr_some_pos (by omega)] at hv'
      omega

theorem readOr_reachable (s : Option Nat) (h : ReachableCounter s) :
    readOr s = s.getD baseline := by
  cases s with
  | none => rfl
  | some v =>
    have hv := reachable_gt h v rfl
    simp [readOr_some_pos (Nat.lt_of_le_of_lt (Nat.zero_le _) hv)]

theorem runAlloc_some (N p : Nat) (hp : 0 < p) :
    runAlloc N (some p) =
      ((List.range N).map (fun i => p + 1 + i), some (p + N)) := by
  induction N generalizing p with
  | zero => simp [runAlloc]
  | succ k ih =>
    have hstep := allocate_some_pos hp
    have hrest := ih (p + 1) (Nat.succ_pos p)
    simp only [runAlloc, hstep, hrest]
    rw [Prod.mk.injEq]
    constructor
    · rw [List.range_succ_eq_map, List.map_cons, List.map_map]
      refine List.cons_eq_cons.mpr ⟨by omega, ?_⟩
      refine (List.map_congr_left ?_).symm
      intro a _
      simp only [Function.comp]
      omega
    · congr 1
      omega

theorem runAlloc_none (N : Nat) :
    (runAlloc N none).1 = (List.range N).map (fun i => baseline + 1 + i) ∧
    (runAlloc N none).2 = if N = 0 then none else some (baseline + N) := by
  cases N with
  | zero => simp [runAlloc]
  | succ k =>
    have hfirst : allocate none = (baseline + 1, some (baseline + 1)) := rfl
    have hrest := runAlloc_some k (baseline + 1) (Nat.succ_pos baseline)
    constructor
    · simp only [runAlloc, hfirst, hrest]
      rw [List.range_succ_eq_map, List.map_cons, List.map_map]
      refine List.cons_eq_cons.mpr ⟨by omega, ?_⟩
      refine (List.map_congr_left ?_).symm
      intro a _
      simp only [Function.comp]
      omega
    · simp only [runAlloc, hfirst, hrest, if_neg (Nat.succ_ne_zero k)]
      congr 1
      omega

theorem readOr_runAlloc_none (k : Nat) :
    readOr ((runAlloc k none).2) = baseline + k := by
  rcases runAlloc_none k with ⟨-, h2⟩
  cases k with
  | zero => simp [h2, readOr_none]
  | succ j =>
    simp only [h2, if_neg (Nat.succ_ne_zero j)]
    exact readOr_some_pos (by omega)

-- ---------------------------------------------------------------------
-- Claims about the ClaimCounter Durable Object
-- ---------------------------------------------------------------------

/-- C1: every `POST /next` call to `ClaimCounter.fetch`, in any storage state
reachable in the service's lifetime, returns `previous_n + 1` where
`previous_n` is the value persisted under key `"n"` (or the baseline 100000
if nothing has been persisted yet), with success body exactly
`{"n":<that integer>}`, and persists the returned value. -/
theorem C1_allocate_next_returns_succ (s : Option Nat) (h : ReachableCounter s) :
    ClaimCounter.fetch postNext s =
      ({ status := 200, body := jsonCounterBody (s.getD baseline + 1) },
       some (s.getD baseline + 1)) := by
  have hro := readOr_reachable s h
  simp [ClaimCounter.fetch, postNext, allocate, hro]

theorem C1_witness :
    ClaimCounter.fetch postNext none =
      ({ status := 200, body := jsonCounterBody 100001 }, some 100001) :=
  C1_allocate_next_returns_succ none ReachableCounter.fresh

/-- C2: `N` successful sequential allocations from a fresh store return, in
order, exactly the list `[100001, 100002, ..., 100000 + N]` — in particular
the multiset of returned values, sorted, is `{100001, ..., 100000 + N}`. -/
theorem C2_fresh_run_returns_consecutive (N : Nat) :
    (runAlloc N none).1 = (List.range N).map (fun i => 100001 + i) := by
  rcases runAlloc_none N with ⟨h1, -⟩
  rw [h1]
  refine List.map_congr_left ?_
  intro a _
  simp [baseline]

/-- C3: across a lifetime of successful allocations from a fresh store, the
counter value read back from storage is monotonically non-decreasing, and the
list of values returned to callers never repeats an integer. -/
theorem C3_monotone_and_no_reissue (j k N : Nat) (h : j ≤ k) :
    readOr ((runAlloc j none).2) ≤ readOr ((runAlloc k none).2) ∧
    ((runAlloc N none).1).Nodup := by
  constructor
  · rw [readOr_runAlloc_none, readOr_runAlloc_none]
    omega
  · rcases runAlloc_none N with ⟨h1, -⟩
    rw [h1]
    refine List.Nodup.map ?_ (List.nodup_range N)
    intro a b hab
    have hab' : baseline + 1 + a = baseline + 1 + b := hab
    omega

theorem C3_witness :
    readOr ((runAlloc 1 none).2) ≤ readOr ((runAlloc 3 none).2) ∧
    ((runAlloc 5 none).1).Nodup :=
  C3_monotone_and_no_reissue 1 3 5 (by omega)

/-- C4: after a successful allocation returned `v`, a process restart (which
preserves durable storage — the Durable Object keeps no in-memory counter)
is followed by an allocation returning exactly `v + 1`, never `v` or lower;
concretely from a fresh counter: call 1 returns 100001, call 2 returns
100002, and call 3 after a restart returns 100003. -/
theorem C4_restart_durability (s : Option Nat) :
    (allocate (restart (allocate s).2)).1 = (allocate s).1 + 1 ∧
    (allocate none).1 = 100001 ∧
    (allocate (allocate none).2).1 = 100002 ∧
    (allocate (restart (allocate (allocate none).2).2)).1 = 100003 := by
  refine ⟨?_, rfl, rfl, rfl⟩
  have h : (allocate s).2 = some ((allocate s).1) := rfl
  have hpos : 0 < (allocate s).1 := Nat.succ_pos (readOr s)
  rw [restart, h, allocate_some_pos hpos]

/-- C5: if the persistence write fails during a call, the call fails with
`StorageUnavailable`, the persisted value is unchanged by the failed call,
and a subsequent successful call returns exactly the value a successful call
would have returned had the failing call never been attempted. -/
theorem C5_failure_atomicity (s : Option Nat) :
    fetchNextWithPut false s = (Except.error CounterError.storageUnavailable, s) ∧
    (fetchNextWithPut true ((fetchNextWithPut false s).2)).1 =
      Except.ok ((allocate s).1) :=
  ⟨rfl, rfl⟩

/-- C6: `N` concurrent allocations against a counter whose persisted value is
`p` — serialized by the Durable Object runtime, which delivers events to one
instance one at a time and gates input during storage awaits — return `N`
distinct integers forming exactly `{p + 1, ..., p + N}`, with no duplicates
and no gaps among those calls. -/
theorem C6_concurrent_batch_exact (N p : Nat) (hp : 0 < p) :
    (runAlloc N (some p)).1 = (List.range N).map (fun i => p + 1 + i) ∧
    ((runAlloc N (some p)).1).Nodup := by
  rw [runAlloc_some N p hp]
  refine ⟨rfl, ?_⟩
  refine List.Nodup.map ?_ (List.nodup_range N)
  intro a b hab
  have hab' : p + 1 + a = p + 1 + b := hab
  omega

theorem C6_witness :
    (runAlloc 100 (some 100000)).1 = (List.range 100).map (fun i => 100000 + 1 + i) ∧
    ((runAlloc 100 (some 100000)).1).Nodup :=
  C6_concurrent_batch_exact 100 100000 (by omega)

/-- C8: a request to `ClaimCounter.fetch` whose method is not POST or whose
path is not `/next` gets a 404 response and leaves the persisted counter
untouched — no read-increment-persist cycle is performed. -/
theorem C8_non_next_request_is_noop (req : DoRequest) (s : Option Nat)
    (h : req.method ≠ "POST" ∨ req.path ≠ "/next") :
    ClaimCounter.fetch req s = ({ status := 404, body := "Not found" }, s) := by
  simp [ClaimCounter.fetch, if_pos h]

theorem C8_witness :
    ClaimCounter.fetch { method := "GET", path := "/next" } (some 100001) =
      ({ status := 404, body := "Not found" }, some 100001) :=
  C8_non_next_request_is_noop { method := "GET", path := "/next" } (some 100001)
    (Or.inl (by decide))

-- ---------------------------------------------------------------------
-- Worker default.fetch handler (post-parse control flow)
-- ---------------------------------------------------------------------

/-- One allowed VIN character per the regex `[A-HJ-NPR-Z0-9]` on source line
285: the ranges A-H, J-N, the letter P, the range R-Z (so no I, O, Q), and
digits. -/
def vinCharOk (c : Char) : Bool :=
  (Char.ofNat 65 ≤ c && c ≤ Char.ofNat 72) ||
  (Char.ofNat 74 ≤ c && c ≤ Char.ofNat 78) ||
  c = Char.ofNat 80 ||
  (Char.ofNat 82 ≤ c && c ≤ Char.ofNat 90) ||
  (Char.ofNat 48 ≤ c && c ≤ Char.ofNat 57)

/-- The anchored VIN test `/^[A-HJ-NPR-Z0-9]{17}$/.test(vin)` (source line
285): exactly 17 characters, all from the class above. -/
def vinOk (vin : String) : Bool :=
  vin.length = 17 && vin.data.all vinCharOk

/-- One character matching `[^\s@]` in the email regex on source lines 301
and 351: anything that is neither whitespace nor `@`. -/
def emailCharOk (c : Char) : Bool :=
  !c.isWhitespace && c ≠ Char.ofNat 64

/-- The anchored email test `/^[^\s@]+@[^\s@]+\.[^\s@]+$/.test(s)` (source
lines 301 and 351). The string must split as `a @ r` with `a` and `r`
non-empty runs of `[^\s@]` characters and `r` containing a dot that is
neither its first nor its last character (the two `[^\s@]+` groups around
`\.` must each match at least one character; with backtracking, any such dot
position witnesses a match). -/
def emailOk (s : String) : Bool :=
  let l := s.data
  let a := l.takeWhile (fun c => c ≠ Char.ofNat 64)
  match l.drop a.length with
  | [] => false
  | _ :: r =>
    !a.isEmpty && a.all emailCharOk && !r.isEmpty && r.all emailCharOk &&
      (r.drop 1).dropLast.contains (Char.ofNat 46)

/-- The parsed, normalized form fields the handler's control flow inspects
(source lines 96-265: every field is `String(...).trim()`-normalized, emails
lower-cased), plus the attachment errors accumulated while collecting
multipart files (source lines 247-265). -/
structure Form where
  vin : String
  claim_submitted_by : String
  honeypot : String
  dealer_name : String
  dealer_first_name : String
  dealer_last_name : String
  dealer_address : String
  dealer_city : String
  dealer_region : String
  dealer_postal_code : String
  dealer_country : String
  dealer_phone : String
  dealer_email : String
  customer_first_name : String
  customer_last_name : String
  customer_address : String
  customer_city : String
  customer_region : String
  customer_postal_code : String
  customer_country : String
  customer_phone : String
  customer_email : String
  date_of_occurrence : String
  ship_to : String
  warranty_symptoms : String
  warranty_request : String
  attachmentErrors : List String

/-- The server-side validation block (source lines 282-354), producing the
`errors` array in exactly the order the code pushes messages. A JS truthiness
test `!field` on a normalized field is emptiness of the string. -/
def validationErrors (f : Form) : List String :=
  (if !vinOk f.vin then ["VIN must be 17 chars (no I, O, Q)."] else []) ++
  (if f.customer_first_name = "" then ["Customer first name is required."] else []) ++
  (if f.customer_last_name = "" then ["Customer last name is required."] else []) ++
  (if f.customer_address = "" then ["Customer address is required."] else []) ++
  (if f.customer_city = "" then ["Customer city is required."] else []) ++
  (if f.customer_region = "" then ["Customer state/region is required."] else []) ++
  (if f.customer_postal_code = "" then ["Customer postal/ZIP code is required."] else []) ++
  (if f.customer_country = "" then ["Customer country is required."] else []) ++
  (if f.customer_phone = "" then ["Customer phone is required."] else []) ++
  (if f.customer_email = "" then ["Customer email is required."]
   else if !emailOk f.customer_email then ["Customer email is invalid."] else []) ++
  (if f.date_of_occurrence = "" then ["Date of occurrence is required."] else []) ++
  (if f.ship_to = "" then ["Ship-to information is required."] else []) ++
  (if f.warranty_symptoms = "" then ["Warranty symptoms are required."] else []) ++
  (if f.warranty_request = "" then ["Warranty request is required."] else []) ++
  (if f.claim_submitted_by = "dealer" then
    (if f.dealer_name = "" then ["Dealership name is required when the dealer is submitting the claim."] else []) ++
    (if f.dealer_first_name = "" then ["Dealer first name is required when the dealer is submitting the claim."] else []) ++
    (if f.dealer_last_name = "" then ["Dealer last name is required when the dealer is submitting the claim."] else []) ++
    (if f.dealer_address = "" then ["Dealer address is required when the dealer is submitting the claim."] else []) ++
    (if f.dealer_city = "" then ["Dealer city is required when the dealer is submitting the claim."] else []) ++
    (if f.dealer_region = "" then ["Dealer state/region is required when the dealer is submitting the claim."] else []) ++
    (if f.dealer_postal_code = "" then ["Dealer postal/ZIP code is required when the dealer is submitting the claim."] else []) ++
    (if f.dealer_country = "" then ["Dealer country is required when the dealer is submitting the claim."] else []) ++
    (if f.dealer_phone = "" then ["Dealer phone is required when the dealer is submitting the claim."] else []) ++
    (if f.dealer_email = "" then ["Dealer email is required when the dealer is submitting the claim."]
     else if !emailOk f.dealer_email then ["Dealer email is invalid."] else [])
   else [])

/-- External side effects the handler performs after validation, in program
order (source lines 405-910). Associations, file uploads and the attachment
note happen only after `hsTicketCreate` and are elided; the first three
attempts are unconditional on the accepted path, and the email attempt is
made exactly when the Brevo configuration check on lines 676-678 passes. -/
inductive Event where
  | allocNext (n : Nat)
  | hsContactUpsert
  | hsTicketCreate
  | emailSend
deriving DecidableEq, Repr

/-- Does an event create a CRM record (a HubSpot contact or ticket)? -/
def isCRMCreate : Event → Bool
  | Event.hsContactUpsert => true
  | Event.hsTicketCreate => true
  | _ => false

/-- Is an event the claim-number allocation? -/
def isAlloc : Event → Bool
  | Event.allocNext _ => true
  | _ => false

/-- Number of claim-number allocations in an effect trace. -/
def countAlloc (es : List Event) : Nat :=
  es.countP isAlloc

/-- Scanning the trace in order: before any CRM-record creation there is a
claim-number allocation (and a trace with no CRM events passes vacuously). -/
def allocPrecedesCRM : List Event → Bool
  | [] => true
  | e :: rest =>
    if isCRMCreate e then false
    else if isAlloc e then true
    else allocPrecedesCRM rest

/-- Outcome of the worker's `fetch` handler: HTTP status, the JSON body
fields the claims mention, the resulting counter storage, and the ordered
trace of external effects attempted. -/
structure HandlerOut where
  status : Nat
  ok : Bool
  message : Option String
  errors : List String
  claimNumber : Option Nat
  counter : Option Nat
  events : List Event

/-- JavaScript `a || b` on strings: the left operand unless it is empty. -/
def jsOrS (a b : String) : String :=
  if a ≠ "" then a else b

/-- JavaScript `String.prototype.trim()`: strip whitespace from both ends. -/
def jsTrim (s : String) : String :=
  ⟨((s.data.dropWhile Char.isWhitespace).reverse.dropWhile Char.isWhitespace).reverse⟩

/-- The final user-facing message (source lines 912-917), keyed on the email
status ("sent" / "failed" / "skipped"). -/
def submitMessage (emailConfigured emailSendOk : Bool) : String :=
  if emailConfigured then
    if emailSendOk then "Submitted. Confirmation email sent."
    else "Submitted. Email delivery is currently unavailable; we’ll follow up."
  else "Submitted. (Email not configured in this environment.)"

/-- The worker's `default.fetch` control flow from the honeypot gate onward
(source lines 272-933), over an already-parsed form `f`, the environment's
email configuration check (lines 676-678), whether the Brevo send succeeds,
and the counter storage:
* a non-empty honeypot returns 200 `{ ok: true, message: "Submitted." }`
  immediately (lines 273-276) — nothing else runs;
* a non-empty combined `errors`/`attachmentErrors` list returns 400 with
  those errors (lines 356-362) — no allocation happens;
* otherwise the claim number is allocated from the Durable Object (lines
  405-410), then the HubSpot contact upsert and ticket create are attempted
  (lines 414-606), then the confirmation email when configured (lines
  676-910), and a 200 response reports the claim number (lines 919-932). -/
def handle (f : Form) (emailConfigured emailSendOk : Bool) (cnt : Option Nat) :
    HandlerOut :=
  if f.honeypot ≠ "" then
    { status := 200, ok := true, message := some "Submitted.", errors := [],
      claimNumber := none, counter := cnt, events := [] }
  else
    let errs := validationErrors f ++ f.attachmentErrors
    if errs ≠ [] then
      { status := 400, ok := false, message := none, errors := errs,
        claimNumber := none, counter := cnt, events := [] }
    else
      let r := allocate cnt
      { status := 200, ok := true,
        message := some (submitMessage emailConfigured emailSendOk),
        errors := [], claimNumber := some r.1, counter := r.2,
        events := Event.allocNext r.1 :: Event.hsContactUpsert ::
          Event.hsTicketCreate ::
          (if emailConfigured then [Event.emailSend] else []) }

/-- A form whose every field is empty (used to instantiate handler claims). -/
def emptyForm : Form where
  vin := ""
  claim_submitted_by := ""
  honeypot := ""
  dealer_name := ""
  dealer_first_name := ""
  dealer_last_name := ""
  dealer_address := ""
  dealer_city := ""
  dealer_region := ""
  dealer_postal_code := ""
  dealer_country := ""
  dealer_phone := ""
  dealer_email := ""
  customer_first_name := ""
  customer_last_name := ""
  customer_address := ""
  customer_city := ""
  customer_region := ""
  customer_postal_code := ""
  customer_country := ""
  customer_phone := ""
  customer_email := ""
  date_of_occurrence := ""
  ship_to := ""
  warranty_symptoms := ""
  warranty_request := ""
  attachmentErrors := []

/-- C7: the handler allocates a claim number exactly once when the submission
clears the honeypot gate and all server-side validation (empty combined
errors list), and zero times otherwise; a submission whose computed errors
list is non-empty gets a 400 response; and in every trace the allocation
happens before any CRM record (contact or ticket) is created. -/
theorem C7_alloc_once_iff_valid (f : Form) (ec eok : Bool) (cnt : Option Nat) :
    countAlloc (handle f ec eok cnt).events =
      (if f.honeypot = "" ∧ validationErrors f ++ f.attachmentErrors = []
       then 1 else 0) ∧
    (handle f ec eok cnt).status =
      (if f.honeypot ≠ "" then 200
       else if validationErrors f ++ f.attachmentErrors ≠ [] then 400 else 200) ∧
    allocPrecedesCRM (handle f ec eok cnt).events = true := by
  by_cases h1 : f.honeypot = ""
  · by_cases h2 : validationErrors f ++ f.attachmentErrors = []
    · cases ec <;>
        simp [handle, h1, h2, countAlloc, allocPrecedesCRM, isAlloc, isCRMCreate,
          List.countP_cons, List.countP_nil]
    · simp [handle, h1, h2, countAlloc, allocPrecedesCRM, List.countP_nil]
  · simp [handle, h1, countAlloc, allocPrecedesCRM, List.countP_nil]

/-- C9: a submission whose honeypot field (`honeypot`, or `_hp` when
`honeypot` is falsy, source lines 183 and 206) is non-empty after trimming
gets a 200 response with body `{ ok: true, message: "Submitted." }`, and the
handler performs no allocation, no HubSpot call and no email send — the
counter storage is returned unchanged. -/
theorem C9_honeypot_drops_silently (f : Form) (hpField hp2Field : String)
    (ec eok : Bool) (cnt : Option Nat)
    (h : jsTrim (jsOrS hpField hp2Field) ≠ "") :
    handle { f with honeypot := jsTrim (jsOrS hpField hp2Field) } ec eok cnt =
      { status := 200, ok := true, message := some "Submitted.", errors := [],
        claimNumber := none, counter := cnt, events := [] } := by
  simp [handle, h]

theorem C9_witness :
    jsTrim (jsOrS "spam-bot" "") ≠ "" ∧
    handle { emptyForm with honeypot := jsTrim (jsOrS "spam-bot" "") } false false none =
      { status := 200, ok := true, message := some "Submitted.", errors := [],
        claimNumber := none, counter := none, events := [] } :=
  ⟨by decide, C9_honeypot_drops_silently emptyForm "spam-bot" "" false false none (by decide)⟩

-- ---------------------------------------------------------------------
-- escapeHtml (source lines 978-985)
-- ---------------------------------------------------------------------

/-- The ampersand character. -/
def ampC : Char := Char.ofNat 38

/-- The less-than character. -/
def ltC : Char := Char.ofNat 60

/-- The greater-than character. -/
def gtC : Char := Char.ofNat 62

/-- The double-quote character. -/
def quotC : Char := Char.ofNat 34

/-- The single-quote (apostrophe) character. -/
def aposC : Char := Char.ofNat 39

/-- `String.prototype.replaceAll` with a single-character needle: replace
every occurrence of `c` by the replacement `r`. -/
def replaceAllC (c : Char) (r : List Char) (l : List Char) : List Char :=
  l.flatMap (fun ch => if ch = c then r else [ch])

/-- The chain of the five `replaceAll` calls of `escapeHtml` (source lines
978-985), applied in source order: `&` first, then `<`, `>`, `"`, `'`. -/
def escList (l : List Char) : List Char :=
  replaceAllC aposC "&#39;".data
    (replaceAllC quotC "&quot;".data
      (replaceAllC gtC "&gt;".data
        (replaceAllC ltC "&lt;".data
          (replaceAllC ampC "&amp;".data l))))

/-- `escapeHtml` (source lines 978-985). -/
def escapeHtml (s : String) : String :=
  ⟨escList s.data⟩

/-- What the five sequential replacements do to one input character. -/
def escSpec (c : Char) : List Char :=
  if c = ampC then "&amp;".data
  else if c = ltC then "&lt;".data
  else if c = gtC then "&gt;".data
  else if c = quotC then "&quot;".data
  else if c = aposC then "&#39;".data
  else [c]

/-- The entity tails that may legitimately follow a `&` in escaped output. -/
def entityTails : List (List Char) :=
  ["amp;".data, "lt;".data, "gt;".data, "quot;".data, "#39;".data]

/-- Does the list start with one of the five entity tails (so that a `&`
right before it begins `&amp;`, `&lt;`, `&gt;`, `&quot;` or `&#39;`)? -/
def startsEntity (l : List Char) : Bool :=
  List.isPrefixOf "amp;".data l || List.isPrefixOf "lt;".data l ||
  List.isPrefixOf "gt;".data l || List.isPrefixOf "quot;".data l ||
  List.isPrefixOf "#39;".data l

/-- Every ampersand in the list occurs only as the start of one of the five
entities. -/
def ampOkB : List Char → Bool
  | [] => true
  | c :: rest => (if c = ampC then startsEntity rest else true) && ampOkB rest

/-- The list contains none of the raw HTML metacharacters `<`, `>`, `"`,
`'`. -/
def noSpecialsB (l : List Char) : Bool :=
  l.all (fun c => !(c = ltC || c = gtC || c = quotC || c = aposC))

theorem replaceAllC_append (c : Char) (r a b : List Char) :
    replaceAllC c r (a ++ b) = replaceAllC c r a ++ replaceAllC c r b := by
  simp [replaceAllC]

theorem escList_append (a b : List Char) :
    escList (a ++ b) = escList a ++ escList b := by
  simp [escList, replaceAllC_append]

theorem escList_singleton (c : Char) : escList [c] = escSpec c := by
  by_cases h1 : c = ampC
  · subst h1; decide
  · by_cases h2 : c = ltC
    · subst h2; decide
    · by_cases h3 : c = gtC
      · subst h3; decide
      · by_cases h4 : c = quotC
        · subst h4; decide
        · by_cases h5 : c = aposC
          · subst h5; decide
          · simp [escList, escSpec, replaceAllC, h1, h2, h3, h4, h5]

theorem escList_eq_flatMap (l : List Char) : escList l = l.flatMap escSpec := by
  induction l with
  | nil => rfl
  | cons c t ih =>
    have h1 : escList (c :: t) = escList [c] ++ escList t := escList_append [c] t
    rw [h1, escList_singleton, ih, ← List.flatMap_cons]

theorem isPrefixOf_append_self (l m : List Char) :
    List.isPrefixOf l (l ++ m) = true := by
  induction l with
  | nil => simp [List.isPrefixOf]
  | cons c t ih => simp [List.isPrefixOf, ih]

theorem ampOkB_no_amp_append (p m : List Char)
    (h : p.all (fun c => !(c = ampC)) = true) :
    ampOkB (p ++ m) = ampOkB m := by
  induction p with
  | nil => rfl
  | cons c t ih =>
    rw [List.all_cons, Bool.and_eq_true] at h
    have hc : ¬(c = ampC) := by
      intro hc
      rw [hc] at h
      simp at h
    simp [ampOkB, hc, ih h.2]

theorem ampOkB_entity_append (t m : List Char) (ht : t ∈ entityTails)
    (hno : t.all (fun c => !(c = ampC)) = true) :
    ampOkB (ampC :: (t ++ m)) = ampOkB m := by
  have hse : startsEntity (t ++ m) = true := by
    simp only [entityTails, List.mem_cons] at ht
    rcases ht with rfl | rfl | rfl | rfl | rfl | h
    · simp [startsEntity, isPrefixOf_append_self]
    · simp [startsEntity, isPrefixOf_append_self]
    · simp [startsEntity, isPrefixOf_append_self]
    · simp [startsEntity, isPrefixOf_append_self]
    · simp [startsEntity, isPrefixOf_append_self]
    · simp at h
  simp [ampOkB, hse, ampOkB_no_amp_append t m hno]

theorem noSpecialsB_append (a b : List Char) :
    noSpecialsB (a ++ b) = (noSpecialsB a && noSpecialsB b) := by
  simp [noSpecialsB]

/-- C10: for every input string, `escapeHtml` produces output containing none
of the characters `<`, `>`, `"`, `'`, in which every `&` occurs only as the
start of one of the entities `&amp;`, `&lt;`, `&gt;`, `&quot;`, `&#39;` — so
every user-supplied value interpolated into the confirmation-email HTML
through `escapeHtml` is free of raw HTML metacharacters. -/
theorem C10_escapeHtml_safe (s : String) :
    noSpecialsB (escapeHtml s).data = true ∧ ampOkB (escapeHtml s).data = true := by
  show noSpecialsB (escList s.data) = true ∧ ampOkB (escList s.data) = true
  rw [escList_eq_flatMap]
  induction s.data with
  | nil => exact ⟨rfl, rfl⟩
  | cons c t ih =>
    rw [List.flatMap_cons]
    constructor
    · rw [noSpecialsB_append, Bool.and_eq_true]
      refine ⟨?_, ih.1⟩
      by_cases h1 : c = ampC
      · subst h1; decide
      · by_cases h2 : c = ltC
        · subst h2; decide
        · by_cases h3 : c = gtC
          · subst h3; decide
          · by_cases h4 : c = quotC
            · subst h4; decide
            · by_cases h5 : c = aposC
              · subst h5; decide
              · simp [escSpec, noSpecialsB, h1, h2, h3, h4, h5]
    · by_cases h1 : c = ampC
      · subst h1
        have : escSpec ampC = ampC :: "amp;".data := by decide
        rw [this, List.cons_append,
          ampOkB_entity_append "amp;".data _ (by decide) (by decide)]
        exact ih.2
      · by_cases h2 : c = ltC
        · subst h2
          have : escSpec ltC = ampC :: "lt;".data := by decide
          rw [this, List.cons_append,
            ampOkB_entity_append "lt;".data _ (by decide) (by decide)]
          exact ih.2
        · by_cases h3 : c = gtC
          · subst h3
            have : escSpec gtC = ampC :: "gt;".data := by decide
            rw [this, List.cons_append,
              ampOkB_entity_append "gt;".data _ (by decide) (by decide)]
            exact ih.2
          · by_cases h4 : c = quotC
            · subst h4
              have : escSpec quotC = ampC :: "quot;".data := by decide
              rw [this, List.cons_append,
                ampOkB_entity_append "quot;".data _ (by decide) (by decide)]
              exact ih.2
            · by_cases h5 : c = aposC
              · subst h5
                have : escSpec aposC = ampC :: "#39;".data := by decide
                rw [this, List.cons_append,
                  ampOkB_entity_append "#39;".data _ (by decide) (by decide)]
                exact ih.2
              · have hesc : escSpec c = [c] := by
                  simp [escSpec, h1, h2, h3, h4, h5]
                rw [hesc, List.singleton_append]
                simp [ampOkB, h1, ih.2]
